import Mathlib

/-!
Verification of the QuickEx privacy-contract module and two backend services.

The contract component (serializer, commitment engine, privacy registry,
escrow manager) ships in this repository only as documentation; its Rust
source is not present. Those components are therefore modelled from the
specification: each such definition carries a doc comment beginning
`Modelled from the spec:`. The host's commit-or-discard transactional
semantics are modelled by `Except`: an operation that returns `.error e`
aborts the whole invocation, so no state mutation survives — the caller
keeps the pre-call state.

The backend services (`HorizonService.getPayments`,
`UsernamesController.createUsername`) are embedded directly from the
TypeScript source.
-/

namespace QuickEx

/-! ## Bytes and fixed-width big-endian encoding -/

/-- Modelled from the spec: a byte string is a list of byte values.
`natToBytesBE k n` is the `k`-byte big-endian encoding of `n % 256^k`,
most significant byte first. -/
def natToBytesBE : Nat → Nat → List Nat
  | 0, _ => []
  | k + 1, n => natToBytesBE k (n / 256) ++ [n % 256]

theorem natToBytesBE_length (k n : Nat) : (natToBytesBE k n).length = k := by
  induction k generalizing n with
  | zero => rfl
  | succ k ih => simp [natToBytesBE, ih]

theorem natToBytesBE_inj {k m n : Nat} (hm : m < 256 ^ k) (hn : n < 256 ^ k)
    (h : natToBytesBE k m = natToBytesBE k n) : m = n := by
  induction k generalizing m n with
  | zero =>
    interval_cases m
    interval_cases n
    rfl
  | succ k ih =>
    simp only [natToBytesBE] at h
    have hlen : (natToBytesBE k (m / 256)).length = (natToBytesBE k (n / 256)).length := by
      simp [natToBytesBE_length]
    obtain ⟨h1, h2⟩ := List.append_inj h hlen
    have hdm : m / 256 < 256 ^ k := by
      rw [Nat.div_lt_iff_lt_mul (by norm_num)]
      calc m < 256 ^ (k + 1) := hm
        _ = 256 ^ k * 256 := by ring
    have hdn : n / 256 < 256 ^ k := by
      rw [Nat.div_lt_iff_lt_mul (by norm_num)]
      calc n < 256 ^ (k + 1) := hn
        _ = 256 ^ k * 256 := by ring
    have hdiv : m / 256 = n / 256 := ih hdm hdn h1
    have hmod : m % 256 = n % 256 := by simpa using h2
    calc m = 256 * (m / 256) + m % 256 := (Nat.div_add_mod m 256).symm
      _ = 256 * (n / 256) + n % 256 := by rw [hdiv, hmod]
      _ = n := Nat.div_add_mod n 256

/-! ## Serializer

Modelled from the spec: the account identifier is an opaque, comparable,
serializable 256-bit key (a Stellar address wraps a 32-byte key), with
`encode_address` the fixed-width self-delimiting 32-byte encoding and
`encode_amount` the 16-byte big-endian two's-complement encoding of a
signed 128-bit amount. -/

/-- Modelled from the spec: an opaque account identifier, a 256-bit value. -/
abbrev Address := Fin (2 ^ 256)

/-- Modelled from the spec: fixed-width (hence self-delimiting) 32-byte
encoding of an account identifier. -/
def encode_address (a : Address) : List Nat := natToBytesBE 32 a.val

/-- Modelled from the spec: 16-byte big-endian two's-complement encoding of a
signed 128-bit amount; `Int.emod _ (2^128)` is exactly the unsigned
reinterpretation of the two's-complement bit pattern. -/
def encode_amount (amount : Int) : List Nat :=
  natToBytesBE 16 (Int.emod amount (2 ^ 128)).toNat

theorem encode_address_length (a : Address) : (encode_address a).length = 32 :=
  natToBytesBE_length 32 a.val

theorem encode_amount_length (amount : Int) : (encode_amount amount).length = 16 :=
  natToBytesBE_length 16 _

theorem encode_address_inj {a b : Address} (h : encode_address a = encode_address b) :
    a = b := by
  have h256 : (256 : Nat) ^ 32 = 2 ^ 256 := by norm_num
  have ha : a.val < 256 ^ 32 := by rw [h256]; exact a.isLt
  have hb : b.val < 256 ^ 32 := by rw [h256]; exact b.isLt
  exact Fin.ext (natToBytesBE_inj ha hb h)

theorem encode_amount_inj {a b : Int}
    (ha1 : -(2 ^ 127) ≤ a) (ha2 : a < 2 ^ 127)
    (hb1 : -(2 ^ 127) ≤ b) (hb2 : b < 2 ^ 127)
    (h : encode_amount a = encode_amount b) : a = b := by
  have hm : (0 : Int) < 2 ^ 128 := by positivity
  have hma : 0 ≤ Int.emod a (2 ^ 128) := Int.emod_nonneg a (by positivity)
  have hmb : 0 ≤ Int.emod b (2 ^ 128) := Int.emod_nonneg b (by positivity)
  have hlta : Int.emod a (2 ^ 128) < 2 ^ 128 := Int.emod_lt_of_pos a hm
  have hltb : Int.emod b (2 ^ 128) < 2 ^ 128 := Int.emod_lt_of_pos b hm
  have htn : (Int.emod a (2 ^ 128)).toNat = (Int.emod b (2 ^ 128)).toNat := by
    refine natToBytesBE_inj (k := 16) ?_ ?_ h
    · have : (256 : Nat) ^ 16 = 2 ^ 128 := by norm_num
      rw [this]
      omega
    · have : (256 : Nat) ^ 16 = 2 ^ 128 := by norm_num
      rw [this]
      omega
  have hemod : Int.emod a (2 ^ 128) = Int.emod b (2 ^ 128) := by omega
  have hdvd : (2 ^ 128 : Int) ∣ (a - b) :=
    Int.dvd_of_emod_eq_zero (Int.emod_eq_emod_iff_emod_sub_eq_zero.mp hemod)
  have habs : |a - b| < 2 ^ 128 := by
    rw [abs_lt]
    constructor <;> nlinarith
  have := Int.eq_zero_of_abs_lt_dvd hdvd habs
  omega

/-! ## SHA-256

Modelled from the spec: the commitment hash is SHA-256. The implementation
below is the FIPS 180-4 algorithm over byte lists, with 32-bit words as
`Nat` reduced mod `2^32` and bitwise operations implemented by structural
recursion over 32 bits so that concrete hashes evaluate inside proofs. It
matches the standard test vectors for the empty message, "abc", and a
two-block message. -/

def bitwiseFuel (f : Bool → Bool → Bool) : Nat → Nat → Nat → Nat
  | 0, _, _ => 0
  | fuel + 1, n, m =>
    (if f (n % 2 == 1) (m % 2 == 1) then 1 else 0) + 2 * bitwiseFuel f fuel (n / 2) (m / 2)

def xor32 (n m : Nat) : Nat := bitwiseFuel (fun a b => a != b) 32 n m

def and32 (n m : Nat) : Nat := bitwiseFuel (fun a b => a && b) 32 n m

def not32 (n : Nat) : Nat := 4294967295 - n % 4294967296

def add32 (n m : Nat) : Nat := (n + m) % 4294967296

def rotr (k n : Nat) : Nat := n % 4294967296 / 2 ^ k + n % 2 ^ k * 2 ^ (32 - k)

def shr (k n : Nat) : Nat := n % 4294967296 / 2 ^ k

def smallSigma0 (x : Nat) : Nat := xor32 (rotr 7 x) (xor32 (rotr 18 x) (shr 3 x))

def smallSigma1 (x : Nat) : Nat := xor32 (rotr 17 x) (xor32 (rotr 19 x) (shr 10 x))

def bigSigma0 (x : Nat) : Nat := xor32 (rotr 2 x) (xor32 (rotr 13 x) (rotr 22 x))

def bigSigma1 (x : Nat) : Nat := xor32 (rotr 6 x) (xor32 (rotr 11 x) (rotr 25 x))

def chWord (e f g : Nat) : Nat := xor32 (and32 e f) (and32 (not32 e) g)

def majWord (a b c : Nat) : Nat := xor32 (and32 a b) (xor32 (and32 a c) (and32 b c))

structure Hash8 where
  a : Nat
  b : Nat
  c : Nat
  d : Nat
  e : Nat
  f : Nat
  g : Nat
  h : Nat
deriving DecidableEq, Repr

def shaInit : Hash8 :=
  ⟨1779033703, 3144134277, 1013904242, 2773480762,
   1359893119, 2600822924, 528734635, 1541459225⟩

def shaK : List Nat :=
  [1116352408, 1899447441, 3049323471, 3921009573, 961987163, 1508970993,
   2453635748, 2870763221, 3624381080, 310598401, 607225278, 1426881987,
   1925078388, 2162078206, 2614888103, 3248222580, 3835390401, 4022224774,
   264347078, 604807628, 770255983, 1249150122, 1555081692, 1996064986,
   2554220882, 2821834349, 2952996808, 3210313671, 3336571891, 3584528711,
   113926993, 338241895, 666307205, 773529912, 1294757372, 1396182291,
   1695183700, 1986661051, 2177026350, 2456956037, 2730485921, 2820302411,
   3259730800, 3345764771, 3516065817, 3600352804, 4094571909, 275423344,
   430227734, 506948616, 659060556, 883997877, 958139571, 1322822218,
   1537002063, 1747873779, 1955562222, 2024104815, 2227730452, 2361852424,
   2428436474, 2756734187, 3204031479, 3329325298]

/-- Extend the (reversed, most-recent-first) message schedule by `k` words. -/
def extendSchedule : Nat → List Nat → List Nat
  | 0, ws => ws
  | k + 1, ws =>
    let w2 := ws.getD 1 0
    let w7 := ws.getD 6 0
    let w15 := ws.getD 14 0
    let w16 := ws.getD 15 0
    extendSchedule k (add32 (add32 (smallSigma1 w2) w7) (add32 (smallSigma0 w15) w16) :: ws)

def compressRound (st : Hash8) (kw : Nat × Nat) : Hash8 :=
  let t1 := add32 (add32 st.h (bigSigma1 st.e)) (add32 (chWord st.e st.f st.g) (add32 kw.1 kw.2))
  let t2 := add32 (bigSigma0 st.a) (majWord st.a st.b st.c)
  ⟨add32 t1 t2, st.a, st.b, st.c, add32 st.d t1, st.e, st.f, st.g⟩

def processBlock (H : Hash8) (block : List Nat) : Hash8 :=
  let ws := (extendSchedule 48 block.reverse).reverse
  let st := (shaK.zip ws).foldl compressRound H
  ⟨add32 H.a st.a, add32 H.b st.b, add32 H.c st.c, add32 H.d st.d,
   add32 H.e st.e, add32 H.f st.f, add32 H.g st.g, add32 H.h st.h⟩

def processBlocks (H : Hash8) : List Nat → Hash8
  | w0 :: w1 :: w2 :: w3 :: w4 :: w5 :: w6 :: w7 ::
    w8 :: w9 :: w10 :: w11 :: w12 :: w13 :: w14 :: w15 :: rest =>
    processBlocks
      (processBlock H [w0, w1, w2, w3, w4, w5, w6, w7, w8, w9, w10, w11, w12, w13, w14, w15])
      rest
  | _ => H

def bytesToWords : List Nat → List Nat
  | b0 :: b1 :: b2 :: b3 :: rest =>
    (((b0 * 256 + b1) * 256 + b2) * 256 + b3) :: bytesToWords rest
  | _ => []

def padMessage (msg : List Nat) : List Nat :=
  let L := msg.length
  msg ++ [128] ++ List.replicate ((120 - (L + 1) % 64) % 64) 0 ++ natToBytesBE 8 (L * 8)

def hashToBytes (st : Hash8) : List Nat :=
  natToBytesBE 4 st.a ++ natToBytesBE 4 st.b ++ natToBytesBE 4 st.c ++ natToBytesBE 4 st.d ++
  natToBytesBE 4 st.e ++ natToBytesBE 4 st.f ++ natToBytesBE 4 st.g ++ natToBytesBE 4 st.h

def sha256 (msg : List Nat) : List Nat :=
  hashToBytes (processBlocks shaInit (bytesToWords (padMessage msg)))

theorem hashToBytes_length (st : Hash8) : (hashToBytes st).length = 32 := by
  simp [hashToBytes, natToBytesBE_length]

theorem sha256_length (msg : List Nat) : (sha256 msg).length = 32 :=
  hashToBytes_length _

/-! ## Commitment engine

Modelled from the spec: `create_amount_commitment` validates `amount ≥ 0`
(else `InvalidAmount`) and `len(salt) ≤ 256` (else `SaltTooLong`, the
preconditions in the order the spec lists them), then returns
`SHA-256(encode_address owner || encode_amount amount || salt)`.
`verify_amount_commitment` enforces the same preconditions, re-derives the
commitment by the identical algorithm and compares bytes, returning the
ordinary boolean result. Both are pure: the `Except` result is the whole
effect, so a failure leaves every piece of state unchanged. -/

/-- Modelled from the spec: the input/caller error kinds and collaborator
failure kinds of the contract module. -/
inductive ContractError where
  | InvalidAmount
  | SaltTooLong
  | InvalidPrivacyLevel
  | InvalidEscrowParameters
  | InsufficientFunds
  | Unauthorized
  | EscrowNotFound
  | EscrowAlreadyFinalized
deriving DecidableEq, Repr

/-- Modelled from the spec: commitment creation. -/
def create_amount_commitment (owner : Address) (amount : Int) (salt : List Nat) :
    Except ContractError (List Nat) :=
  if amount < 0 then .error .InvalidAmount
  else if 256 < salt.length then .error .SaltTooLong
  else .ok (sha256 (encode_address owner ++ encode_amount amount ++ salt))

/-- Modelled from the spec: commitment verification re-derives and compares. -/
def verify_amount_commitment (commitment : List Nat) (owner : Address) (amount : Int)
    (salt : List Nat) : Except ContractError Bool :=
  match create_amount_commitment owner amount salt with
  | .error e => .error e
  | .ok derived => .ok (decide (commitment = derived))

/-- A concrete test address (the zero key). -/
def addr0 : Address := ⟨0, by norm_num⟩

theorem create_amount_commitment_ok (o : Address) (a : Int) (s : List Nat)
    (ha : 0 ≤ a) (hs : s.length ≤ 256) :
    create_amount_commitment o a s =
      .ok (sha256 (encode_address o ++ encode_amount a ++ s)) := by
  unfold create_amount_commitment
  rw [if_neg (by omega), if_neg (by omega)]

/-- C1: for every owner, amount ≥ 0 and salt of length ≤ 256,
`verify_amount_commitment c o a s` returns the normal boolean result
`true` exactly when `c` is byte-for-byte the hash that
`create_amount_commitment o a s` returns; in particular the round trip
verifies, and any mismatched `c` yields `false` rather than an abort. -/
theorem verify_amount_commitment_iff_create (c : List Nat) (o : Address) (a : Int)
    (s : List Nat) (ha : 0 ≤ a) (hs : s.length ≤ 256) :
    ∃ cv, create_amount_commitment o a s = .ok cv ∧
      (verify_amount_commitment c o a s = .ok true ↔ c = cv) ∧
      verify_amount_commitment cv o a s = .ok true ∧
      (c ≠ cv → verify_amount_commitment c o a s = .ok false) := by
  have hcreate := create_amount_commitment_ok o a s ha hs
  refine ⟨sha256 (encode_address o ++ encode_amount a ++ s), hcreate, ?_, ?_, ?_⟩
  · unfold verify_amount_commitment
    rw [hcreate]
    constructor
    · intro h
      have := Except.ok.inj h
      exact of_decide_eq_true this
    · intro h
      subst h
      simp
  · unfold verify_amount_commitment
    rw [hcreate]
    simp
  · intro hne
    unfold verify_amount_commitment
    rw [hcreate]
    simpa using hne

/-- Closed instance of C1 at a concrete owner, amount and salt. -/
theorem verify_amount_commitment_iff_create_witness :
    ∃ cv, create_amount_commitment addr0 7 [1, 2] = .ok cv ∧
      (verify_amount_commitment [] addr0 7 [1, 2] = .ok true ↔ ([] : List Nat) = cv) ∧
      verify_amount_commitment cv addr0 7 [1, 2] = .ok true ∧
      (([] : List Nat) ≠ cv → verify_amount_commitment [] addr0 7 [1, 2] = .ok false) :=
  verify_amount_commitment_iff_create [] addr0 7 [1, 2] (by norm_num) (by norm_num)

set_option maxRecDepth 100000 in
set_option maxHeartbeats 4000000 in
/-- C2: under the preconditions `amount ≥ 0` and `len(salt) ≤ 256`,
`create_amount_commitment` is pure (its `Except` value is its entire
effect) and returns exactly the 32-byte value
`SHA-256(encode_address owner || encode_amount amount || salt)`; in the
concrete scenario with amount 1,500,000 and salt `[42, 13, 99]` it returns
that hash for every owner, and verifying that commitment against amount
1,500,001 with the same owner and salt returns the normal result
`false`. -/
theorem create_amount_commitment_sha256_spec :
    (∀ (o : Address) (a : Int) (s : List Nat), 0 ≤ a → s.length ≤ 256 →
      create_amount_commitment o a s =
        .ok (sha256 (encode_address o ++ encode_amount a ++ s)) ∧
      (sha256 (encode_address o ++ encode_amount a ++ s)).length = 32) ∧
    (∀ o : Address, create_amount_commitment o 1500000 [42, 13, 99] =
      .ok (sha256 (encode_address o ++ encode_amount 1500000 ++ [42, 13, 99]))) ∧
    verify_amount_commitment
      (sha256 (encode_address addr0 ++ encode_amount 1500000 ++ [42, 13, 99]))
      addr0 1500001 [42, 13, 99] = .ok false := by
  refine ⟨fun o a s ha hs => ⟨create_amount_commitment_ok o a s ha hs, sha256_length _⟩,
    fun o => create_amount_commitment_ok o 1500000 [42, 13, 99] (by norm_num) (by norm_num),
    ?_⟩
  have hcreate := create_amount_commitment_ok addr0 1500001 [42, 13, 99]
    (by norm_num) (by norm_num)
  unfold verify_amount_commitment
  rw [hcreate]
  have hne : sha256 (encode_address addr0 ++ encode_amount 1500000 ++ [42, 13, 99]) ≠
      sha256 (encode_address addr0 ++ encode_amount 1500001 ++ [42, 13, 99]) := by
    show sha256 (natToBytesBE 32 0 ++ natToBytesBE 16 (Int.emod 1500000 (2 ^ 128)).toNat ++
        [42, 13, 99]) ≠
      sha256 (natToBytesBE 32 0 ++ natToBytesBE 16 (Int.emod 1500001 (2 ^ 128)).toNat ++
        [42, 13, 99])
    decide
  simpa using hne

/-- Closed instance of C2 with every remaining quantifier fixed. -/
theorem create_amount_commitment_sha256_spec_witness :
    create_amount_commitment addr0 1500000 [42, 13, 99] =
      .ok (sha256 (encode_address addr0 ++ encode_amount 1500000 ++ [42, 13, 99])) ∧
    verify_amount_commitment
      (sha256 (encode_address addr0 ++ encode_amount 1500000 ++ [42, 13, 99]))
      addr0 1500001 [42, 13, 99] = .ok false :=
  ⟨create_amount_commitment_sha256_spec.2.1 addr0, create_amount_commitment_sha256_spec.2.2⟩

/-- C3: `create_amount_commitment` fails with `InvalidAmount` for every
negative amount and, once the amount precondition holds, with
`SaltTooLong` for every salt longer than 256 bytes; both boundaries
(`amount = 0`, `len(salt) = 256`) are accepted; and
`verify_amount_commitment` enforces the same two preconditions with the
same failures. Both functions are pure, so a failure leaves all state
unchanged by construction. -/
theorem commitment_input_validation :
    (∀ (o : Address) (a : Int) (s : List Nat), a < 0 →
      create_amount_commitment o a s = .error .InvalidAmount) ∧
    (∀ (o : Address) (a : Int) (s : List Nat), 0 ≤ a → 256 < s.length →
      create_amount_commitment o a s = .error .SaltTooLong) ∧
    (∀ (o : Address) (s : List Nat), s.length ≤ 256 →
      ∃ cv, create_amount_commitment o 0 s = .ok cv) ∧
    (∀ (o : Address) (a : Int) (s : List Nat), 0 ≤ a → s.length = 256 →
      ∃ cv, create_amount_commitment o a s = .ok cv) ∧
    (∀ (c : List Nat) (o : Address) (a : Int) (s : List Nat), a < 0 →
      verify_amount_commitment c o a s = .error .InvalidAmount) ∧
    (∀ (c : List Nat) (o : Address) (a : Int) (s : List Nat), 0 ≤ a → 256 < s.length →
      verify_amount_commitment c o a s = .error .SaltTooLong) := by
  have hneg : ∀ (o : Address) (a : Int) (s : List Nat), a < 0 →
      create_amount_commitment o a s = .error .InvalidAmount := by
    intro o a s ha
    unfold create_amount_commitment
    rw [if_pos ha]
  have hsalt : ∀ (o : Address) (a : Int) (s : List Nat), 0 ≤ a → 256 < s.length →
      create_amount_commitment o a s = .error .SaltTooLong := by
    intro o a s ha hs
    unfold create_amount_commitment
    rw [if_neg (by omega), if_pos hs]
  refine ⟨hneg, hsalt, ?_, ?_, ?_, ?_⟩
  · intro o s hs
    exact ⟨_, create_amount_commitment_ok o 0 s le_rfl hs⟩
  · intro o a s ha hs
    exact ⟨_, create_amount_commitment_ok o a s ha (by omega)⟩
  · intro c o a s ha
    unfold verify_amount_commitment
    rw [hneg o a s ha]
  · intro c o a s ha hs
    unfold verify_amount_commitment
    rw [hsalt o a s ha hs]

/-- Closed instance of C3: `amount = -1` is rejected as `InvalidAmount`, a
257-byte salt is rejected as `SaltTooLong`, and both boundaries are
accepted, for creation and for verification. -/
theorem commitment_input_validation_witness :
    create_amount_commitment addr0 (-1) [7] = .error .InvalidAmount ∧
    create_amount_commitment addr0 3 (List.replicate 257 0) = .error .SaltTooLong ∧
    (∃ cv, create_amount_commitment addr0 0 [] = .ok cv) ∧
    (∃ cv, create_amount_commitment addr0 3 (List.replicate 256 0) = .ok cv) ∧
    verify_amount_commitment [] addr0 (-1) [7] = .error .InvalidAmount ∧
    verify_amount_commitment [] addr0 3 (List.replicate 257 0) = .error .SaltTooLong :=
  ⟨commitment_input_validation.1 addr0 (-1) [7] (by norm_num),
   commitment_input_validation.2.1 addr0 3 (List.replicate 257 0) (by norm_num)
     (by rw [List.length_replicate]; norm_num),
   commitment_input_validation.2.2.1 addr0 [] (by norm_num),
   commitment_input_validation.2.2.2.1 addr0 3 (List.replicate 256 0) (by norm_num)
     (List.length_replicate 256 0),
   commitment_input_validation.2.2.2.2.1 [] addr0 (-1) [7] (by norm_num),
   commitment_input_validation.2.2.2.2.2 [] addr0 3 (List.replicate 257 0) (by norm_num)
     (by rw [List.length_replicate]; norm_num)⟩

/-- C8: the serialized commitment preimage
`encode_address owner ++ encode_amount amount ++ salt` is injective on
triples with `amount` in the signed 128-bit range: `encode_address` is a
fixed-width (hence self-delimiting) 32-byte encoding, `encode_amount` is
the fixed-width 16-byte big-endian two's-complement encoding (injective on
i128), and the salt is the final undelimited field. -/
theorem commitment_preimage_injective
    (o o' : Address) (a a' : Int) (s s' : List Nat)
    (ha1 : -(2 ^ 127) ≤ a) (ha2 : a < 2 ^ 127)
    (hb1 : -(2 ^ 127) ≤ a') (hb2 : a' < 2 ^ 127)
    (h : encode_address o ++ encode_amount a ++ s =
      encode_address o' ++ encode_amount a' ++ s') :
    (o = o' ∧ a = a' ∧ s = s') ∧
    (encode_address o).length = 32 ∧ (encode_amount a).length = 16 := by
  rw [List.append_assoc, List.append_assoc] at h
  obtain ⟨h1, h2⟩ := List.append_inj h (by simp [encode_address_length])
  obtain ⟨h3, h4⟩ := List.append_inj h2 (by simp [encode_amount_length])
  exact ⟨⟨encode_address_inj h1, encode_amount_inj ha1 ha2 hb1 hb2 h3, h4⟩,
    encode_address_length o, encode_amount_length a⟩

/-- Closed instance of C8 at a concrete triple. -/
theorem commitment_preimage_injective_witness :
    ((addr0 = addr0 ∧ (5 : Int) = 5 ∧ [9, 9] = [9, 9]) ∧
     (encode_address addr0).length = 32 ∧ (encode_amount 5).length = 16) :=
  commitment_preimage_injective addr0 addr0 5 5 [9, 9] [9, 9]
    (by norm_num) (by norm_num) (by norm_num) (by norm_num) rfl


/-! ## Privacy registry

Modelled from the spec: a per-account `PrivacyRecord` holds the current
level and an append-only history of `{previous_level, new_level,
ledger_timestamp}` entries; `enable_privacy` validates
`0 < level ≤ MAX_PRIVACY_LEVEL`, writes the level and appends one entry
whose `previous_level` is the prior level (`none` is the unset sentinel
for first-time accounts) and whose timestamp is the host-supplied
invocation timestamp. A failed call returns `.error` and, under the
host's commit-or-discard semantics, leaves every record unchanged. -/

/-- Modelled from the spec: one immutable privacy history entry. -/
structure PrivacyEntry where
  previous_level : Option Nat
  new_level : Nat
  ledger_timestamp : Nat
deriving DecidableEq, Repr

/-- Modelled from the spec: the persisted per-account privacy record. -/
structure PrivacyRecord where
  level : Nat
  history : List PrivacyEntry
deriving DecidableEq, Repr

/-- Modelled from the spec: the level bound. The spec fixes the name but not
the numeric value; any positive constant satisfies every claim, and 3 is
used here. -/
def MAX_PRIVACY_LEVEL : Nat := 3

/-- Modelled from the spec: the persisted key-value privacy store. -/
abbrev PrivacyState := List (Address × PrivacyRecord)

def lookupRecord (account : Address) : PrivacyState → Option PrivacyRecord
  | [] => none
  | (a, r) :: rest => if a = account then some r else lookupRecord account rest

def setRecord (account : Address) (r : PrivacyRecord) : PrivacyState → PrivacyState
  | [] => [(account, r)]
  | (a, r0) :: rest =>
    if a = account then (a, r) :: rest else (a, r0) :: setRecord account r rest

/-- Modelled from the spec: `enable_privacy(account, level)` with the
invocation's ledger timestamp passed in by the host. -/
def enable_privacy (s : PrivacyState) (account : Address) (level : Nat) (ts : Nat) :
    Except ContractError PrivacyState :=
  if level = 0 ∨ MAX_PRIVACY_LEVEL < level then .error .InvalidPrivacyLevel
  else
    let prior := lookupRecord account s
    let entry : PrivacyEntry := ⟨prior.map PrivacyRecord.level, level, ts⟩
    let hist := (match prior with | some r => r.history | none => []) ++ [entry]
    .ok (setRecord account ⟨level, hist⟩ s)

/-- Modelled from the spec: current level, `none` being the unset sentinel. -/
def privacy_status (s : PrivacyState) (account : Address) : Option Nat :=
  (lookupRecord account s).map PrivacyRecord.level

/-- Modelled from the spec: the full append-only log in chronological order. -/
def privacy_history (s : PrivacyState) (account : Address) : List PrivacyEntry :=
  match lookupRecord account s with
  | some r => r.history
  | none => []

theorem lookupRecord_setRecord_self (account : Address) (r : PrivacyRecord)
    (s : PrivacyState) : lookupRecord account (setRecord account r s) = some r := by
  induction s with
  | nil => simp [setRecord, lookupRecord]
  | cons p rest ih =>
    obtain ⟨a, r0⟩ := p
    by_cases h : a = account
    · simp [setRecord, lookupRecord, h]
    · simp [setRecord, lookupRecord, h, ih]

theorem enable_privacy_ok (s : PrivacyState) (account : Address) (level ts : Nat)
    (h1 : 0 < level) (h2 : level ≤ MAX_PRIVACY_LEVEL) :
    enable_privacy s account level ts =
      .ok (setRecord account
        ⟨level, privacy_history s account ++ [⟨privacy_status s account, level, ts⟩]⟩ s) := by
  unfold enable_privacy
  rw [if_neg (by omega)]
  rfl

theorem enable_privacy_ok_status_history (s : PrivacyState) (account : Address)
    (level ts : Nat) (h1 : 0 < level) (h2 : level ≤ MAX_PRIVACY_LEVEL) :
    ∃ s2, enable_privacy s account level ts = .ok s2 ∧
      privacy_status s2 account = some level ∧
      privacy_history s2 account =
        privacy_history s account ++ [⟨privacy_status s account, level, ts⟩] := by
  refine ⟨_, enable_privacy_ok s account level ts h1 h2, ?_, ?_⟩
  · simp [privacy_status, lookupRecord_setRecord_self]
  · simp [privacy_history, lookupRecord_setRecord_self]

/-- Sequence of `enable_privacy` invocations, level and timestamp each. -/
def runEnableCalls (s : PrivacyState) (account : Address) :
    List (Nat × Nat) → Except ContractError PrivacyState
  | [] => .ok s
  | (l, t) :: rest =>
    match enable_privacy s account l t with
    | .error e => .error e
    | .ok s2 => runEnableCalls s2 account rest

/-- The history entries a call sequence generates, chaining each entry's
`previous_level` to the preceding entry's `new_level`. -/
def histFromCalls (prev : Option Nat) : List (Nat × Nat) → List PrivacyEntry
  | [] => []
  | (l, t) :: rest => ⟨prev, l, t⟩ :: histFromCalls (some l) rest

/-- Each entry's `previous_level` equals the preceding entry's `new_level`,
starting from `prev`. -/
def chained (prev : Option Nat) : List PrivacyEntry → Prop
  | [] => True
  | e :: rest => e.previous_level = prev ∧ chained (some e.new_level) rest

theorem histFromCalls_length (prev : Option Nat) (calls : List (Nat × Nat)) :
    (histFromCalls prev calls).length = calls.length := by
  induction calls generalizing prev with
  | nil => rfl
  | cons p rest ih => obtain ⟨l, t⟩ := p; simp [histFromCalls, ih]

theorem histFromCalls_chained (prev : Option Nat) (calls : List (Nat × Nat)) :
    chained prev (histFromCalls prev calls) := by
  induction calls generalizing prev with
  | nil => trivial
  | cons p rest ih => obtain ⟨l, t⟩ := p; exact ⟨rfl, ih (some l)⟩

theorem runEnableCalls_ok (calls : List (Nat × Nat)) (s : PrivacyState) (account : Address)
    (hvalid : ∀ p ∈ calls, 0 < p.1 ∧ p.1 ≤ MAX_PRIVACY_LEVEL) :
    ∃ s2, runEnableCalls s account calls = .ok s2 ∧
      privacy_history s2 account =
        privacy_history s account ++ histFromCalls (privacy_status s account) calls := by
  induction calls generalizing s with
  | nil => exact ⟨s, rfl, by simp [histFromCalls]⟩
  | cons p rest ih =>
    obtain ⟨l, t⟩ := p
    obtain ⟨hl1, hl2⟩ := hvalid (l, t) (List.mem_cons_self _ _)
    obtain ⟨s1, hs1, hst, hhist⟩ := enable_privacy_ok_status_history s account l t hl1 hl2
    obtain ⟨s2, hs2, hhist2⟩ := ih s1 (fun p hp => hvalid p (List.mem_cons_of_mem _ hp))
    refine ⟨s2, ?_, ?_⟩
    · simp [runEnableCalls, hs1, hs2]
    · rw [hhist2, hhist, hst, histFromCalls, List.append_assoc]
      rfl

/-- C6: starting from an account with no record, after any sequence of `N`
successful `enable_privacy` calls the history has length exactly `N`, the
entries are exactly the calls in invocation order, each entry's
`previous_level` equals the preceding entry's `new_level` with the unset
sentinel (`none`) first, and one further successful call — including a
repeat of the current level — only appends one more entry, leaving every
existing entry unchanged. -/
theorem privacy_history_accumulates (s : PrivacyState) (account : Address)
    (calls : List (Nat × Nat)) (hfresh : lookupRecord account s = none)
    (hvalid : ∀ p ∈ calls, 0 < p.1 ∧ p.1 ≤ MAX_PRIVACY_LEVEL) :
    ∃ s2, runEnableCalls s account calls = .ok s2 ∧
      privacy_history s2 account = histFromCalls none calls ∧
      (privacy_history s2 account).length = calls.length ∧
      chained none (privacy_history s2 account) ∧
      (∀ l t, 0 < l → l ≤ MAX_PRIVACY_LEVEL →
        ∃ s3, enable_privacy s2 account l t = .ok s3 ∧
          privacy_history s3 account =
            privacy_history s2 account ++ [⟨privacy_status s2 account, l, t⟩]) := by
  obtain ⟨s2, hrun, hhist⟩ := runEnableCalls_ok calls s account hvalid
  have hempty : privacy_history s account = [] := by
    simp [privacy_history, hfresh]
  have hstat : privacy_status s account = none := by
    simp [privacy_status, hfresh]
  rw [hempty, hstat, List.nil_append] at hhist
  refine ⟨s2, hrun, hhist, ?_, ?_, ?_⟩
  · rw [hhist, histFromCalls_length]
  · rw [hhist]; exact histFromCalls_chained none calls
  · intro l t hl1 hl2
    obtain ⟨s3, h3, _, hh3⟩ := enable_privacy_ok_status_history s2 account l t hl1 hl2
    exact ⟨s3, h3, hh3⟩

/-- Closed instance of C6: three successful calls (the first two with the
same level) from the empty store. -/
theorem privacy_history_accumulates_witness :
    ∃ s2, runEnableCalls [] addr0 [(1, 10), (1, 11), (2, 12)] = .ok s2 ∧
      privacy_history s2 addr0 = histFromCalls none [(1, 10), (1, 11), (2, 12)] ∧
      (privacy_history s2 addr0).length = [(1, 10), (1, 11), (2, 12)].length ∧
      chained none (privacy_history s2 addr0) ∧
      (∀ l t, 0 < l → l ≤ MAX_PRIVACY_LEVEL →
        ∃ s3, enable_privacy s2 addr0 l t = .ok s3 ∧
          privacy_history s3 addr0 =
            privacy_history s2 addr0 ++ [⟨privacy_status s2 addr0, l, t⟩]) :=
  privacy_history_accumulates [] addr0 [(1, 10), (1, 11), (2, 12)] rfl (by decide)

/-- C7: `enable_privacy` fails with `InvalidPrivacyLevel` for `level = 0`,
for `level = MAX_PRIVACY_LEVEL + 1`, and for every level outside
`0 < level ≤ MAX_PRIVACY_LEVEL`; the error return models the abort of the
invocation, so no level is written and no history entry is appended. On
success it writes the level as current and appends exactly one history
entry carrying the prior level (the unset sentinel `none` for a
first-time account) and the invocation timestamp. -/
theorem enable_privacy_validation (s : PrivacyState) (account : Address) (t : Nat) :
    enable_privacy s account 0 t = .error .InvalidPrivacyLevel ∧
    enable_privacy s account (MAX_PRIVACY_LEVEL + 1) t = .error .InvalidPrivacyLevel ∧
    (∀ l, ¬(0 < l ∧ l ≤ MAX_PRIVACY_LEVEL) →
      enable_privacy s account l t = .error .InvalidPrivacyLevel) ∧
    (∀ l, 0 < l → l ≤ MAX_PRIVACY_LEVEL →
      ∃ s2, enable_privacy s account l t = .ok s2 ∧
        privacy_status s2 account = some l ∧
        privacy_history s2 account =
          privacy_history s account ++ [⟨privacy_status s account, l, t⟩]) := by
  have hbad : ∀ l, ¬(0 < l ∧ l ≤ MAX_PRIVACY_LEVEL) →
      enable_privacy s account l t = .error .InvalidPrivacyLevel := by
    intro l hl
    unfold enable_privacy
    rw [if_pos (by omega)]
  exact ⟨hbad 0 (by omega), hbad _ (by omega), hbad,
    fun l h1 h2 => enable_privacy_ok_status_history s account l t h1 h2⟩

/-- Closed instance of C7: levels 0 and `MAX_PRIVACY_LEVEL + 1` rejected,
level 1 accepted on a first-time account with the sentinel recorded. -/
theorem enable_privacy_validation_witness :
    enable_privacy [] addr0 0 5 = .error .InvalidPrivacyLevel ∧
    enable_privacy [] addr0 (MAX_PRIVACY_LEVEL + 1) 5 = .error .InvalidPrivacyLevel ∧
    (∃ s2, enable_privacy [] addr0 1 5 = .ok s2 ∧
      privacy_status s2 addr0 = some 1 ∧
      privacy_history s2 addr0 = [⟨none, 1, 5⟩]) := by
  refine ⟨(enable_privacy_validation [] addr0 5).1,
    (enable_privacy_validation [] addr0 5).2.1, ?_⟩
  obtain ⟨s2, h1, h2, h3⟩ :=
    (enable_privacy_validation [] addr0 5).2.2.2 1 one_pos (by norm_num [MAX_PRIVACY_LEVEL])
  exact ⟨s2, h1, h2, by simpa [privacy_history, privacy_status, lookupRecord] using h3⟩

/-- A second concrete test address. -/
def addr1 : Address := ⟨1, by norm_num⟩


/-! ## Escrow manager

Modelled from the spec: an `EscrowRecord` is created `Pending` by
`create_escrow` after validating `from ≠ to` and `amount > 0` and after
the external fund-reservation collaborator accepts the hold;
`release_escrow` and `cancel_escrow` require the record to exist and be
`Pending`, invoke the fund-transfer collaborator exactly once and move the
record to its terminal status. Every operation returns the collaborator
calls it made alongside its `Except` result; an error result models the
abort of the whole invocation, so no record is persisted or mutated. The
spec names the sender and recipient fields `from` and `to`; `from` is a
Lean keyword, so the fields are `fromAcct` and `toAcct`. -/

inductive EscrowStatus where
  | Pending
  | Released
  | Cancelled
deriving DecidableEq, Repr

/-- Modelled from the spec: the persisted escrow record. -/
structure EscrowRecord where
  fromAcct : Address
  toAcct : Address
  amount : Int
  status : EscrowStatus
  created_at : Nat
deriving DecidableEq, Repr

/-- Modelled from the spec: a failure of the external value-transfer
collaborator, surfaced verbatim to the caller. -/
inductive FundError where
  | InsufficientFunds
  | Unauthorized
deriving DecidableEq, Repr

def FundError.toContractError : FundError → ContractError
  | .InsufficientFunds => .InsufficientFunds
  | .Unauthorized => .Unauthorized

/-- Modelled from the spec: one call into the external value-transfer
collaborator (`reserve`, `transfer` or `refund`). -/
inductive FundCall where
  | reserve (source : Address) (amount : Int)
  | transfer (id : Nat) (recipient : Address)
  | refund (id : Nat) (source : Address)
deriving DecidableEq, Repr

/-- Modelled from the spec: the persisted escrow store and the next fresh
monotonic id. -/
structure EscrowState where
  escrows : List (Nat × EscrowRecord)
  nextId : Nat
deriving DecidableEq, Repr

def findEscrow (id : Nat) : List (Nat × EscrowRecord) → Option EscrowRecord
  | [] => none
  | (i, r) :: rest => if i = id then some r else findEscrow id rest

def setEscrow (id : Nat) (r : EscrowRecord) :
    List (Nat × EscrowRecord) → List (Nat × EscrowRecord)
  | [] => []
  | (i, r0) :: rest =>
    if i = id then (i, r) :: rest else (i, r0) :: setEscrow id r rest

/-- Modelled from the spec: `create_escrow(from, to, amount)`; `reserveFn`
is the external fund-reservation collaborator and `ts` the invocation's
ledger timestamp. Returns the result together with the collaborator calls
made during the invocation. -/
def create_escrow (reserveFn : Address → Int → Option FundError) (s : EscrowState)
    (source target : Address) (amount : Int) (ts : Nat) :
    Except ContractError (Nat × EscrowState) × List FundCall :=
  if source = target ∨ amount ≤ 0 then (.error .InvalidEscrowParameters, [])
  else
    match reserveFn source amount with
    | some e => (.error e.toContractError, [.reserve source amount])
    | none =>
      (.ok (s.nextId,
        ⟨s.escrows ++ [(s.nextId, ⟨source, target, amount, .Pending, ts⟩)], s.nextId + 1⟩),
       [.reserve source amount])

/-- Modelled from the spec: `release_escrow(id)` transfers the held funds to
the recipient and moves the record to the terminal `Released` status. -/
def release_escrow (s : EscrowState) (id : Nat) :
    Except ContractError EscrowState × List FundCall :=
  match findEscrow id s.escrows with
  | none => (.error .EscrowNotFound, [])
  | some r =>
    if r.status ≠ .Pending then (.error .EscrowAlreadyFinalized, [])
    else (.ok ⟨setEscrow id { r with status := .Released } s.escrows, s.nextId⟩,
      [.transfer id r.toAcct])

/-- Modelled from the spec: `cancel_escrow(id)` refunds the held funds to the
sender and moves the record to the terminal `Cancelled` status. -/
def cancel_escrow (s : EscrowState) (id : Nat) :
    Except ContractError EscrowState × List FundCall :=
  match findEscrow id s.escrows with
  | none => (.error .EscrowNotFound, [])
  | some r =>
    if r.status ≠ .Pending then (.error .EscrowAlreadyFinalized, [])
    else (.ok ⟨setEscrow id { r with status := .Cancelled } s.escrows, s.nextId⟩,
      [.refund id r.fromAcct])

theorem findEscrow_append_fresh (id : Nat) (r : EscrowRecord)
    (l : List (Nat × EscrowRecord)) (h : findEscrow id l = none) :
    findEscrow id (l ++ [(id, r)]) = some r := by
  induction l with
  | nil => simp [findEscrow]
  | cons p rest ih =>
    obtain ⟨i, ri⟩ := p
    by_cases hi : i = id
    · rw [findEscrow, if_pos hi] at h
      cases h
    · rw [findEscrow, if_neg hi] at h
      simpa [findEscrow, hi] using ih h

theorem findEscrow_setEscrow_self (id : Nat) (r r0 : EscrowRecord)
    (l : List (Nat × EscrowRecord)) (h : findEscrow id l = some r0) :
    findEscrow id (setEscrow id r l) = some r := by
  induction l with
  | nil => simp [findEscrow] at h
  | cons p rest ih =>
    obtain ⟨i, ri⟩ := p
    by_cases hi : i = id
    · simp [setEscrow, findEscrow, hi]
    · simp only [findEscrow, if_neg hi] at h
      simp [setEscrow, findEscrow, hi, ih h]

theorem findEscrow_setEscrow_other (id id2 : Nat) (r : EscrowRecord)
    (l : List (Nat × EscrowRecord)) (h : id2 ≠ id) :
    findEscrow id2 (setEscrow id r l) = findEscrow id2 l := by
  induction l with
  | nil => rfl
  | cons p rest ih =>
    obtain ⟨i, ri⟩ := p
    by_cases hi : i = id
    · subst hi
      simp [setEscrow, findEscrow, Ne.symm h]
    · simp [setEscrow, findEscrow, hi, ih]

/-- C4: the escrow state machine. A missing id fails with `EscrowNotFound`;
a non-`Pending` record fails with `EscrowAlreadyFinalized`; in both cases
no collaborator call is made and the error models the abort that leaves
the store unchanged. A `Pending` record is released exactly once: the
first `release_escrow` succeeds with one `transfer` call and changes only
that record's status to the terminal `Released`, every other record being
untouched, and a second `release_escrow` of the same id fails with
`EscrowAlreadyFinalized` making no collaborator call; `cancel_escrow`
symmetrically performs the only other transition, `Pending → Cancelled`. -/
theorem escrow_state_machine (s : EscrowState) (id : Nat) :
    (findEscrow id s.escrows = none →
      release_escrow s id = (.error .EscrowNotFound, []) ∧
      cancel_escrow s id = (.error .EscrowNotFound, [])) ∧
    (∀ r, findEscrow id s.escrows = some r → r.status ≠ .Pending →
      release_escrow s id = (.error .EscrowAlreadyFinalized, []) ∧
      cancel_escrow s id = (.error .EscrowAlreadyFinalized, [])) ∧
    (∀ r, findEscrow id s.escrows = some r → r.status = .Pending →
      ∃ s2, release_escrow s id = (.ok s2, [.transfer id r.toAcct]) ∧
        findEscrow id s2.escrows = some { r with status := .Released } ∧
        (∀ id2, id2 ≠ id → findEscrow id2 s2.escrows = findEscrow id2 s.escrows) ∧
        release_escrow s2 id = (.error .EscrowAlreadyFinalized, []) ∧
        cancel_escrow s2 id = (.error .EscrowAlreadyFinalized, [])) ∧
    (∀ r, findEscrow id s.escrows = some r → r.status = .Pending →
      ∃ s2, cancel_escrow s id = (.ok s2, [.refund id r.fromAcct]) ∧
        findEscrow id s2.escrows = some { r with status := .Cancelled } ∧
        (∀ id2, id2 ≠ id → findEscrow id2 s2.escrows = findEscrow id2 s.escrows) ∧
        release_escrow s2 id = (.error .EscrowAlreadyFinalized, []) ∧
        cancel_escrow s2 id = (.error .EscrowAlreadyFinalized, [])) := by
  refine ⟨?_, ?_, ?_, ?_⟩
  · intro h
    constructor <;> simp [release_escrow, cancel_escrow, h]
  · intro r hr hst
    constructor <;> simp [release_escrow, cancel_escrow, hr, hst]
  · intro r hr hst
    have hfound := findEscrow_setEscrow_self id { r with status := .Released } r s.escrows hr
    refine ⟨⟨setEscrow id { r with status := .Released } s.escrows, s.nextId⟩, ?_, hfound,
      fun id2 h2 => findEscrow_setEscrow_other id id2 _ s.escrows h2, ?_, ?_⟩
    · simp [release_escrow, hr, hst]
    · simp [release_escrow, hfound]
    · simp [cancel_escrow, hfound]
  · intro r hr hst
    have hfound := findEscrow_setEscrow_self id { r with status := .Cancelled } r s.escrows hr
    refine ⟨⟨setEscrow id { r with status := .Cancelled } s.escrows, s.nextId⟩, ?_, hfound,
      fun id2 h2 => findEscrow_setEscrow_other id id2 _ s.escrows h2, ?_, ?_⟩
    · simp [cancel_escrow, hr, hst]
    · simp [release_escrow, hfound]
    · simp [cancel_escrow, hfound]

/-- A concrete one-escrow store for the closed instances. -/
def escrowState1 : EscrowState :=
  ⟨[(0, ⟨addr0, addr1, 100, .Pending, 9⟩)], 1⟩

/-- Closed instance of C4: in a store holding one `Pending` escrow, id 5 is
not found, and releasing id 0 succeeds once and fails the second time with
no collaborator call. -/
theorem escrow_state_machine_witness :
    (release_escrow escrowState1 5 = (.error .EscrowNotFound, []) ∧
      cancel_escrow escrowState1 5 = (.error .EscrowNotFound, [])) ∧
    (∃ s2, release_escrow escrowState1 0 = (.ok s2, [.transfer 0 addr1]) ∧
      findEscrow 0 s2.escrows = some ⟨addr0, addr1, 100, .Released, 9⟩ ∧
      (∀ id2, id2 ≠ 0 → findEscrow id2 s2.escrows = findEscrow id2 escrowState1.escrows) ∧
      release_escrow s2 0 = (.error .EscrowAlreadyFinalized, []) ∧
      cancel_escrow s2 0 = (.error .EscrowAlreadyFinalized, [])) :=
  ⟨(escrow_state_machine escrowState1 5).1 rfl,
   (escrow_state_machine escrowState1 0).2.2.1 ⟨addr0, addr1, 100, .Pending, 9⟩ rfl rfl⟩

/-- C5: `create_escrow` fails with `InvalidEscrowParameters` whenever
`from = to` or `amount ≤ 0`, making no collaborator call; when the
fund-reservation collaborator rejects the hold the whole invocation
aborts with that collaborator failure (`InsufficientFunds` or
`Unauthorized`) and, the result being an error, no escrow record is
persisted; on success (and a fresh next id, which the spec's
never-reused-id invariant guarantees) a new `Pending` record carrying the
given parties and amount is persisted under the returned id. -/
theorem create_escrow_spec (reserveFn : Address → Int → Option FundError)
    (s : EscrowState) (source target : Address) (amount : Int) (ts : Nat) :
    (source = target ∨ amount ≤ 0 →
      create_escrow reserveFn s source target amount ts =
        (.error .InvalidEscrowParameters, [])) ∧
    (∀ e, source ≠ target → 0 < amount → reserveFn source amount = some e →
      create_escrow reserveFn s source target amount ts =
        (.error e.toContractError, [.reserve source amount]) ∧
      (e.toContractError = .InsufficientFunds ∨ e.toContractError = .Unauthorized)) ∧
    (source ≠ target → 0 < amount → reserveFn source amount = none →
      findEscrow s.nextId s.escrows = none →
      ∃ s2, create_escrow reserveFn s source target amount ts =
          (.ok (s.nextId, s2), [.reserve source amount]) ∧
        findEscrow s.nextId s2.escrows = some ⟨source, target, amount, .Pending, ts⟩ ∧
        s2.nextId = s.nextId + 1) := by
  refine ⟨?_, ?_, ?_⟩
  · intro h
    unfold create_escrow
    rw [if_pos h]
  · intro e hne hpos hres
    constructor
    · unfold create_escrow
      rw [if_neg (by push_neg; exact ⟨hne, by omega⟩), hres]
    · cases e <;> simp [FundError.toContractError]
  · intro hne hpos hres hfresh
    refine ⟨⟨s.escrows ++ [(s.nextId, ⟨source, target, amount, .Pending, ts⟩)],
      s.nextId + 1⟩, ?_, ?_, rfl⟩
    · unfold create_escrow
      rw [if_neg (by push_neg; exact ⟨hne, by omega⟩), hres]
    · exact findEscrow_append_fresh s.nextId _ s.escrows hfresh

/-- Closed instance of C5: same-party and non-positive amounts fail, a
rejecting collaborator aborts with its failure, and an accepted hold
persists a `Pending` record. -/
theorem create_escrow_spec_witness :
    create_escrow (fun _ _ => none) ⟨[], 0⟩ addr0 addr0 100 3 =
      (.error .InvalidEscrowParameters, []) ∧
    create_escrow (fun _ _ => none) ⟨[], 0⟩ addr0 addr1 0 3 =
      (.error .InvalidEscrowParameters, []) ∧
    create_escrow (fun _ _ => some .InsufficientFunds) ⟨[], 0⟩ addr0 addr1 100 3 =
      (.error .InsufficientFunds, [.reserve addr0 100]) ∧
    (∃ s2, create_escrow (fun _ _ => none) ⟨[], 0⟩ addr0 addr1 100 3 =
        (.ok (0, s2), [.reserve addr0 100]) ∧
      findEscrow 0 s2.escrows = some ⟨addr0, addr1, 100, .Pending, 3⟩ ∧
      s2.nextId = 0 + 1) := by
  have hne : addr0 ≠ addr1 := by
    intro h
    have := congrArg Fin.val h
    simp [addr0, addr1] at this
  refine ⟨(create_escrow_spec _ ⟨[], 0⟩ addr0 addr0 100 3).1 (Or.inl rfl),
    (create_escrow_spec _ ⟨[], 0⟩ addr0 addr1 0 3).1 (Or.inr le_rfl),
    ((create_escrow_spec _ ⟨[], 0⟩ addr0 addr1 100 3).2.1 .InsufficientFunds hne
      (by norm_num) rfl).1,
    (create_escrow_spec _ ⟨[], 0⟩ addr0 addr1 100 3).2.2 hne (by norm_num) rfl rfl⟩


/-! ## HorizonService.getPayments

Embedded from `app/backend/src/transactions/horizon.service.ts`. One call
to Horizon returns a page of operation records; the service filters them
to the three payment types, builds one normalized item per payment (the
memo having been fetched from the parent transaction, `none` when that
fetch failed or the transaction carries no memo), optionally filters by
the requested asset string, and sets `nextCursor` to the `paging_token`
of the last record of the page — computed on the unfiltered records, and
`undefined` exactly when the page was empty. The LRU cache only replays a
previously computed response for the same key, so the pure computation
below is the whole data path. -/

/-- One operation record as fetched from Horizon, with the memo of its
parent transaction already resolved (`none` when the lookup failed or no
memo is present). -/
structure OperationRecord where
  type : String
  amount : String
  asset_type : Option String
  asset_code : String
  asset_issuer : String
  created_at : String
  transaction_hash : String
  paging_token : String
  txMemo : Option String
deriving DecidableEq, Repr

/-- The `record.type` filter of `getPayments`. -/
def isPaymentType (t : String) : Bool :=
  t = "payment" || t = "path_payment_strict_receive" || t = "path_payment_strict_send"

/-- The asset string computed per payment: `XLM` for a native (or absent)
`asset_type`, else `CODE:ISSUER`. -/
def assetStringOf (r : OperationRecord) : String :=
  match r.asset_type with
  | some t => if t ≠ "native" then r.asset_code ++ ":" ++ r.asset_issuer else "XLM"
  | none => "XLM"

/-- Embedded from the TypeScript `TransactionItemDto`. -/
structure TransactionItemDto where
  amount : String
  asset : String
  memo : Option String
  timestamp : String
  txHash : String
  pagingToken : String
deriving DecidableEq, Repr

/-- Embedded from the TypeScript `TransactionResponseDto`; `nextCursor =
none` models the `undefined` cursor. -/
structure TransactionResponseDto where
  items : List TransactionItemDto
  nextCursor : Option String
deriving DecidableEq, Repr

def toItem (r : OperationRecord) : TransactionItemDto :=
  ⟨r.amount, assetStringOf r, r.txMemo, r.created_at, r.transaction_hash, r.paging_token⟩

/-- Embedded from `HorizonService.getPayments`: the response computed from
one fetched page of operation records and the optional asset filter. -/
def getPayments (records : List OperationRecord) (asset : Option String) :
    TransactionResponseDto :=
  let payments := records.filter (fun r => isPaymentType r.type)
  let items := payments.map toItem
  let filteredItems :=
    match asset with
    | some a => items.filter (fun it => it.asset = a)
    | none => items
  ⟨filteredItems, records.getLast?.map OperationRecord.paging_token⟩

/-- C9: for every fetched page, `nextCursor` is the `paging_token` of the
last record before the payment-type and asset filters are applied, and is
`undefined` exactly when the page is empty — so it can be defined while
`items` is empty, as the concrete final conjunct shows — and under an
asset filter every returned item carries exactly that asset. -/
theorem getPayments_cursor_and_filter (records : List OperationRecord)
    (asset : Option String) :
    (getPayments records asset).nextCursor =
      records.getLast?.map OperationRecord.paging_token ∧
    ((getPayments records asset).nextCursor = none ↔ records = []) ∧
    (∀ a, asset = some a →
      ∀ it ∈ (getPayments records asset).items, it.asset = a) := by
  refine ⟨rfl, ?_, ?_⟩
  · show records.getLast?.map OperationRecord.paging_token = none ↔ records = []
    rw [Option.map_eq_none', List.getLast?_eq_none_iff]
  · intro a ha it hit
    subst ha
    simp only [getPayments, List.mem_filter, decide_eq_true_eq] at hit
    exact hit.2

/-- A concrete non-payment record: its page yields no items, yet the cursor
is defined. -/
def recordCreateAccount : OperationRecord :=
  ⟨"create_account", "5", none, "", "", "t0", "h0", "pt0", none⟩

/-- Closed instance of C9: a one-record page whose single record is not a
payment produces an empty item list with a defined cursor. -/
theorem getPayments_cursor_and_filter_witness :
    (getPayments [recordCreateAccount] (some "XLM")).nextCursor =
      [recordCreateAccount].getLast?.map OperationRecord.paging_token ∧
    ((getPayments [recordCreateAccount] (some "XLM")).nextCursor = none ↔
      [recordCreateAccount] = []) ∧
    (getPayments [recordCreateAccount] (some "XLM")).items = [] ∧
    (getPayments [recordCreateAccount] (some "XLM")).nextCursor = some "pt0" :=
  ⟨(getPayments_cursor_and_filter [recordCreateAccount] (some "XLM")).1,
   (getPayments_cursor_and_filter [recordCreateAccount] (some "XLM")).2.1,
   by decide, by decide⟩

/-! ## UsernamesController.createUsername

Embedded from `app/backend/src/usernames/usernames.controller.ts`. The
controller holds no repository or persisted state — its only constructor
dependency is the event emitter — so its entire effect is the returned
body plus the single emitted event, which the embedding returns
explicitly. -/

/-- Embedded from the TypeScript `CreateUsernameDto`. -/
structure CreateUsernameDto where
  username : String
  publicKey : String
deriving DecidableEq, Repr

/-- Embedded from the TypeScript `CreateUsernameResponseDto`. -/
structure CreateUsernameResponseDto where
  ok : Bool
deriving DecidableEq, Repr

/-- An event emitted on the NestJS event bus: its name and payload. -/
structure EmittedEvent where
  name : String
  username : String
  publicKey : String
  timestamp : String
deriving DecidableEq, Repr

/-- Embedded from `UsernamesController.createUsername`; `now` is the
`new Date().toISOString()` value of the invocation. -/
def createUsername (body : CreateUsernameDto) (now : String) :
    CreateUsernameResponseDto × List EmittedEvent :=
  (⟨true⟩, [⟨"username.claimed", body.username, body.publicKey, now⟩])

/-- C10: for every validated request body, `createUsername` returns
`{ ok: true }` unconditionally, and its only effect is emitting a single
`username.claimed` event — no persisted state exists to mutate, so success
implies neither storage nor prior availability of the name. -/
theorem createUsername_ok_and_emits (body : CreateUsernameDto) (now : String) :
    createUsername body now =
      (⟨true⟩, [⟨"username.claimed", body.username, body.publicKey, now⟩]) :=
  rfl

end QuickEx
